import Mathlib

/-!
Verification of the dose recurrence and administration-reconciliation engine
of `KYD.py` (Know Your Doses), via a shallow embedding in Lean 4.

The embedding follows the Python source: dates are proleptic-Gregorian
calendar dates as Python's `datetime.date` (lexicographic comparison on
(year, month, day), day arithmetic through the standard ordinal), `%` and
`//` on integers are Python's floor-convention `Int.fmod` / `Int.fdiv`
(equal to `%` / `/` for positive divisors), and database rows/dictionaries
become structures with the source's field names.
-/

namespace KYD

/-- A proleptic Gregorian calendar date, as Python's `datetime.date`. -/
structure Date where
  year : Int
  month : Int
  day : Int
deriving DecidableEq, Repr

/-- Python's Gregorian leap-year rule (`calendar.isleap`). -/
def isLeap (y : Int) : Prop := (y % 4 = 0 ∧ y % 100 ≠ 0) ∨ y % 400 = 0

instance (y : Int) : Decidable (isLeap y) := by
  unfold isLeap; infer_instance

/-- Number of days in a month of a given year. -/
def daysInMonth (y m : Int) : Int :=
  if m = 2 then (if isLeap y then 29 else 28)
  else if m = 4 ∨ m = 6 ∨ m = 9 ∨ m = 11 then 30
  else 31

/-- A date that `datetime.date` can represent: month in 1..12, day within
the month's length. -/
def Valid (d : Date) : Prop :=
  1 ≤ d.month ∧ d.month ≤ 12 ∧ 1 ≤ d.day ∧ d.day ≤ daysInMonth d.year d.month

instance (d : Date) : Decidable (Valid d) := by
  unfold Valid; infer_instance

/-- Python's `date` comparison `a <= b`: lexicographic on (year, month, day). -/
def dateLe (a b : Date) : Prop :=
  a.year < b.year ∨ (a.year = b.year ∧
    (a.month < b.month ∨ (a.month = b.month ∧ a.day ≤ b.day)))

/-- Python's `date` comparison `a < b`. -/
def dateLt (a b : Date) : Prop :=
  a.year < b.year ∨ (a.year = b.year ∧
    (a.month < b.month ∨ (a.month = b.month ∧ a.day < b.day)))

instance (a b : Date) : Decidable (dateLe a b) := by
  unfold dateLe; infer_instance

instance (a b : Date) : Decidable (dateLt a b) := by
  unfold dateLt; infer_instance

/-- Days preceding month `m` in a non-leap year (cumulative month lengths). -/
def monthOffset (m : Int) : Int :=
  if m = 1 then 0 else if m = 2 then 31 else if m = 3 then 59
  else if m = 4 then 90 else if m = 5 then 120 else if m = 6 then 151
  else if m = 7 then 181 else if m = 8 then 212 else if m = 9 then 243
  else if m = 10 then 273 else if m = 11 then 304 else if m = 12 then 334
  else 0

/-- Python's `date.toordinal`: day count with 0001-01-01 at ordinal 1.
Divisors are positive, so `/` (with nonnegative remainder) is Python's
floor division. -/
def toOrdinal (d : Date) : Int :=
  365 * (d.year - 1) + (d.year - 1) / 4 - (d.year - 1) / 100 + (d.year - 1) / 400
    + monthOffset d.month + (if 2 < d.month ∧ isLeap d.year then 1 else 0) + d.day

/-- Python's `(a - b).days` for two dates. -/
def dateSub (a b : Date) : Int := toOrdinal a - toOrdinal b

/-- Python's `date.weekday()`: Monday is 0. 0001-01-01 (ordinal 1) was a Monday. -/
def weekday (d : Date) : Int := (toOrdinal d + 6) % 7

/-- The calendar successor of a date (`d + timedelta(days=1)`). -/
def nextDay (d : Date) : Date :=
  if d.day < daysInMonth d.year d.month then ⟨d.year, d.month, d.day + 1⟩
  else if d.month < 12 then ⟨d.year, d.month + 1, 1⟩
  else ⟨d.year + 1, 1, 1⟩

/-- The calendar predecessor of a date (`d - timedelta(days=1)`). -/
def prevDay (d : Date) : Date :=
  if 1 < d.day then ⟨d.year, d.month, d.day - 1⟩
  else if 1 < d.month then ⟨d.year, d.month - 1, daysInMonth d.year (d.month - 1)⟩
  else ⟨d.year - 1, 12, 31⟩

/-- Python's `d + timedelta(days=n)` for `n ≥ 0`. -/
def addDays (d : Date) : Nat → Date
  | 0 => d
  | n + 1 => nextDay (addDays d n)

/-- Python's `d - timedelta(days=n)` for `n ≥ 0`. -/
def subDays (d : Date) : Nat → Date
  | 0 => d
  | n + 1 => prevDay (subDays d n)

theorem daysInMonth_ge (y m : Int) : 28 ≤ daysInMonth y m := by
  unfold daysInMonth; split_ifs <;> omega

theorem daysInMonth_le (y m : Int) : daysInMonth y m ≤ 31 := by
  unfold daysInMonth; split_ifs <;> omega

theorem valid_nextDay {d : Date} (h : Valid d) : Valid (nextDay d) := by
  obtain ⟨y, m, day⟩ := d
  obtain ⟨h1, h2, h3, h4⟩ := h
  dsimp only at h1 h2 h3 h4
  unfold nextDay
  dsimp only
  split_ifs with hd hm
  · refine ⟨?_, ?_, ?_, ?_⟩ <;> dsimp only <;> omega
  · have g1 := daysInMonth_ge y (m + 1)
    refine ⟨?_, ?_, ?_, ?_⟩ <;> dsimp only <;> omega
  · have g2 := daysInMonth_ge (y + 1) 1
    refine ⟨?_, ?_, ?_, ?_⟩ <;> dsimp only <;> omega

theorem toOrdinal_nextDay {d : Date} (h : Valid d) :
    toOrdinal (nextDay d) = toOrdinal d + 1 := by
  obtain ⟨y, m, day⟩ := d
  obtain ⟨h1, h2, h3, h4⟩ := h
  dsimp only at h1 h2 h3 h4
  unfold nextDay
  dsimp only
  split_ifs with hd hm
  · simp only [toOrdinal]
    dsimp only
    split_ifs <;> omega
  · -- month rollover, m < 12
    have hday : day = daysInMonth y m := by omega
    subst hday
    interval_cases m <;>
      norm_num [toOrdinal, monthOffset, daysInMonth, isLeap] <;>
      omega
  · -- year rollover: m = 12, day = 31
    have hm12 : m = 12 := by omega
    subst hm12
    have hday : day = 31 := by
      have : daysInMonth y 12 = 31 := by norm_num [daysInMonth]
      omega
    subst hday
    norm_num [toOrdinal, monthOffset, isLeap]
    split_ifs <;> omega

theorem valid_addDays {d : Date} (h : Valid d) (n : Nat) : Valid (addDays d n) := by
  induction n with
  | zero => exact h
  | succ k ih => exact valid_nextDay ih

theorem toOrdinal_addDays {d : Date} (h : Valid d) (n : Nat) :
    toOrdinal (addDays d n) = toOrdinal d + n := by
  induction n with
  | zero => simp [addDays]
  | succ k ih =>
    have := toOrdinal_nextDay (valid_addDays h k)
    simp only [addDays]
    omega

theorem dateSub_addDays {d a : Date} (h : Valid d) (n : Nat) :
    dateSub (addDays d n) a = dateSub d a + n := by
  unfold dateSub
  rw [toOrdinal_addDays h n]
  ring

theorem dateLe_refl (d : Date) : dateLe d d := by
  unfold dateLe; omega

theorem dateLe_trans {a b c : Date} (h1 : dateLe a b) (h2 : dateLe b c) :
    dateLe a c := by
  unfold dateLe at *; omega

theorem dateLe_nextDay (d : Date) : dateLe d (nextDay d) := by
  obtain ⟨y, m, day⟩ := d
  unfold nextDay
  dsimp only
  split_ifs <;> (unfold dateLe; dsimp only; omega)

theorem dateLe_addDays (d : Date) (n : Nat) : dateLe d (addDays d n) := by
  induction n with
  | zero => exact dateLe_refl d
  | succ k ih => exact dateLe_trans ih (dateLe_nextDay (addDays d k))

theorem not_dateLt_of_dateLe {a b : Date} (h : dateLe a b) : ¬ dateLt b a := by
  unfold dateLe dateLt at *; omega

theorem not_dateLe_of_dateLt {a b : Date} (h : dateLt a b) : ¬ dateLe b a := by
  unfold dateLe dateLt at *; omega

/-- A prescription row as unpacked into a dictionary by the dashboard code
(`populate_weekly_grid`, `upcoming_doses`, `update_details_area`). -/
structure Prescription where
  id : Int
  date_first_prescribed : Date
  date_last_administered : Option Date
  compound_name : String
  amount : Int
  unit : String
  frequency : String
  cycling_days_on : Option Int
  cycling_days_off : Option Int
  icon_type : String
deriving DecidableEq, Repr

/-- Python truthiness of a nullable integer column: `None` and `0` are falsy. -/
def truthyOpt : Option Int → Bool
  | none => false
  | some v => v != 0

/-- Weekday numbers of `is_weekday()` in the source (Monday..Friday). -/
def weekdayNumbers : List Int := [0, 1, 2, 3, 4]

/-- Weekday numbers of `monday_wednesday_friday()` in the source. -/
def monday_wednesday_friday : List Int := [0, 2, 4]

/-- Weekday numbers of `monday_thursday()` in the source. -/
def monday_thursday : List Int := [0, 3]

/-- The `weekly_frequencies()` list of the source. -/
def weekly_frequencies : List String := ["weekly", "M,W,F", "M,TH", "MTWTHF"]

/-- Python's `last_day_of_month(dt)`: take day 28 of the month, add 4 days,
then subtract back to the month boundary, and return the `day` field. -/
def last_day_of_month (dt : Date) : Int :=
  let next_month := addDays ⟨dt.year, dt.month, 28⟩ 4
  (subDays next_month next_month.day.toNat).day

/-- The cycling overlay of `is_dose_due_on_date`: `true` exactly when the
function's leading cycling block takes an early `return 0`. -/
def cycling_off_phase (p : Prescription) (check_date : Date) : Bool :=
  if truthyOpt p.cycling_days_on && truthyOpt p.cycling_days_off then
    let cycling_on := p.cycling_days_on.getD 0
    let cycling_off := p.cycling_days_off.getD 0
    if p.frequency = "daily" ∨ p.frequency = "twice-daily" then
      let cycle_length := cycling_on + cycling_off
      let days_since_start := dateSub check_date p.date_first_prescribed
      let position_in_cycle := Int.fmod days_since_start cycle_length
      decide (cycling_on ≤ position_in_cycle)
    else if p.frequency ∈ weekly_frequencies then
      let days_since_start := dateSub check_date p.date_first_prescribed
      let weeks_since_start := Int.fdiv days_since_start 7
      let cycle_duration_in_weeks := cycling_on + cycling_off
      let weeks_into_cycle := Int.fmod weeks_since_start cycle_duration_in_weeks
      decide (cycling_on ≤ weeks_into_cycle)
    else false
  else false

/-- Python's `is_dose_due_on_date(prescription, check_date)`: the number of
doses expected (0, 1, or 2 for twice-daily) on `check_date`. -/
def is_dose_due_on_date (p : Prescription) (check_date : Date) : Int :=
  if cycling_off_phase p check_date then 0
  else if p.frequency = "daily" then
    (if dateLe p.date_first_prescribed check_date then 1 else 0)
  else if p.frequency = "twice-daily" then
    (if dateLe p.date_first_prescribed check_date then 2 else 0)
  else if p.frequency = "M,W,F" then
    (if dateLe p.date_first_prescribed check_date ∧
        weekday check_date ∈ monday_wednesday_friday then 1 else 0)
  else if p.frequency = "MTWTHF" then
    (if dateLe p.date_first_prescribed check_date ∧
        weekday check_date ∈ weekdayNumbers then 1 else 0)
  else if p.frequency = "M,TH" then
    (if dateLe p.date_first_prescribed check_date ∧
        weekday check_date ∈ monday_thursday then 1 else 0)
  else if p.frequency = "weekly" then
    (if dateLe p.date_first_prescribed check_date ∧
        weekday check_date = weekday p.date_first_prescribed then 1 else 0)
  else if p.frequency = "monthly" then
    (if dateLe p.date_first_prescribed check_date then
      (if check_date.day = p.date_first_prescribed.day ∨
          (check_date.day = last_day_of_month check_date ∧
            p.date_first_prescribed.day > check_date.day) then 1 else 0)
     else 0)
  else if p.frequency = "quarterly" then
    (if dateLe p.date_first_prescribed check_date then
      (if Int.fmod ((check_date.year - p.date_first_prescribed.year) * 12
            + check_date.month - p.date_first_prescribed.month) 3 = 0 then
        (if check_date.day = p.date_first_prescribed.day ∨
            (check_date.day = last_day_of_month check_date ∧
              p.date_first_prescribed.day > check_date.day) then 1 else 0)
       else 0)
     else 0)
  else 0

/-- A `HistoricalDose` row (administration-ledger entry). -/
structure DoseEvent where
  person_id : Int
  prescription_id : Int
  date_administered : Date
  compound_name : String
  amount : Int
  unit : String
  dose_number : Int
deriving DecidableEq, Repr

/-- The ledger count query of the dashboards:
`SELECT COUNT(*) FROM HistoricalDose WHERE person_id = ? AND
prescription_id = ? AND date_administered = ?` with an optional
`AND amount > 0` filter. -/
def countAdministered (ledger : List DoseEvent) (pid rid : Int) (d : Date)
    (onlyPositiveAmount : Bool) : Int :=
  ((ledger.filter (fun e =>
    decide (e.person_id = pid ∧ e.prescription_id = rid ∧ e.date_administered = d)
      && (!onlyPositiveAmount || decide (0 < e.amount)))).length : Int)

/-- The remaining-doses value computed by `populate_weekly_grid` and
`update_details_area`: `expected_doses - administered_count`, with the
count restricted to `amount > 0` rows. -/
def remaining_doses (p : Prescription) (pid : Int) (d : Date)
    (ledger : List DoseEvent) : Int :=
  is_dose_due_on_date p d - countAdministered ledger pid p.id d true

/-- The failure of an administer attempt when no dose slot remains
(the spec's `OverdoseError`; in the UI the administer action is simply
not offered). -/
inductive OverdoseError where
  | overdose
deriving DecidableEq, Repr

/-- Python's `administer_dose_quick(prescription, remaining)`: computes
`dose_number = expected - remaining + 1`, inserts the `HistoricalDose` row
with the prescription's current compound/amount/unit snapshot, and updates
the prescription's `date_last_administered` to today. -/
def administer_dose_quick (pid : Int) (p : Prescription) (remaining : Int)
    (today : Date) (ledger : List DoseEvent) : List DoseEvent × Prescription :=
  let expected_today := is_dose_due_on_date p today
  let dose_number := expected_today - remaining + 1
  (ledger ++ [⟨pid, p.id, today, p.compound_name, p.amount, p.unit, dose_number⟩],
   { p with date_last_administered := some today })

/-- One administer attempt as wired by `update_details_area`: the dashboard
computes `expected_today` and `remaining`, and only offers the administer
action (which calls `administer_dose_quick` with that `remaining`) when
`expected_today > 0` and `remaining > 0`; otherwise the attempt fails. -/
def administer_flow (pid : Int) (p : Prescription) (today : Date)
    (ledger : List DoseEvent) :
    Except OverdoseError (List DoseEvent × Prescription) :=
  let expected_today := is_dose_due_on_date p today
  if 0 < expected_today then
    let administered_count := countAdministered ledger pid p.id today true
    let remaining := expected_today - administered_count
    if 0 < remaining then
      Except.ok (administer_dose_quick pid p remaining today ledger)
    else Except.error OverdoseError.overdose
  else Except.error OverdoseError.overdose

/-- Iterated administer attempts for one day, stopping at the first failure. -/
def administerTimes (pid : Int) (today : Date) :
    Nat → List DoseEvent × Prescription →
    Except OverdoseError (List DoseEvent × Prescription)
  | 0, s => Except.ok s
  | n + 1, s =>
    (administerTimes pid today n s).bind (fun s' => administer_flow pid s'.2 today s'.1)

instance {ε α : Type} [DecidableEq ε] [DecidableEq α] : DecidableEq (Except ε α) :=
  fun x y =>
    match x, y with
    | Except.ok a, Except.ok b =>
      if h : a = b then Decidable.isTrue (congrArg Except.ok h)
      else Decidable.isFalse (fun hc => h (Except.ok.inj hc))
    | Except.error e, Except.error f =>
      if h : e = f then Decidable.isTrue (congrArg Except.error h)
      else Decidable.isFalse (fun hc => h (Except.error.inj hc))
    | Except.ok _, Except.error _ => Decidable.isFalse (fun hc => Except.noConfusion hc)
    | Except.error _, Except.ok _ => Decidable.isFalse (fun hc => Except.noConfusion hc)

/-- Modelled from the spec: `backfillMissed(prescriptions, date)` is not
present under `src/` (the source holds only the evaluator and the ledger
queries it relies on). Per the spec, for each prescription with
`dueCount(rule, date) > 0` and `countAdministered(..., onlyPositiveAmount=false) == 0`
(no record at all for that day), one zero-amount `DoseEvent` per expected
slot (`doseNumber` 1..expected) is inserted; if any record exists the whole
day is skipped for that prescription. -/
def backfillMissed (pid : Int) (prescriptions : List Prescription) (d : Date)
    (ledger : List DoseEvent) : List DoseEvent :=
  prescriptions.foldl
    (fun led p =>
      let expected := is_dose_due_on_date p d
      if 0 < expected ∧ countAdministered led pid p.id d false = 0 then
        led ++ (List.range expected.toNat).map
          (fun i => ⟨pid, p.id, d, p.compound_name, 0, p.unit, (i : Int) + 1⟩)
      else led)
    ledger

/-- A per-compound bucket of `upcoming_doses` (the dict built per compound
name, holding running totals). -/
structure FutureDose where
  compound_name : String
  amount : Int
  doses : Int
  unit : String
  icon_type : String
deriving DecidableEq, Repr

/-- One prescription's contribution to the `upcoming_doses` accumulation for
one day: skip when no dose is expected, otherwise create or update the
bucket keyed by the compound name. -/
def upcoming_step (check_date : Date) (m : String → Option FutureDose)
    (p : Prescription) : String → Option FutureDose :=
  let expected_doses := is_dose_due_on_date p check_date
  if 0 < expected_doses then
    let dose_amount := p.amount * expected_doses
    match m p.compound_name with
    | none => fun c =>
        if c = p.compound_name then
          some ⟨p.compound_name, dose_amount, expected_doses, p.unit, p.icon_type⟩
        else m c
    | some fd => fun c =>
        if c = p.compound_name then
          some { fd with doses := fd.doses + expected_doses,
                         amount := fd.amount + dose_amount }
        else m c
  else m

/-- Python's `upcoming_doses(days_ahead)`: for each day offset in
`range(days_ahead)` (skipping dates before today, which cannot occur) and
each prescription, accumulate expected doses into per-compound buckets. -/
def upcoming_doses (prescriptions : List Prescription) (today : Date)
    (days_ahead : Nat) : String → Option FutureDose :=
  (List.range days_ahead).foldl
    (fun m day_delta =>
      let check_date := addDays today day_delta
      if dateLt check_date today then m
      else prescriptions.foldl (fun m p => upcoming_step check_date m p) m)
    (fun _ => none)

/-- One row of the bulk prescription-edit table in `PrescriptionList`,
together with its modification-tracking flags: `modified` models
`row in self.modified_rows` and `date_modified_manually` models
`row in self.date_modified_manually` (set by `mark_changed` when a
`QDateEdit` cell fired). Dates are the serialized `YYYY-MM-DD` strings
read back from the cells (`None` for a blank cell). -/
structure PrescRow where
  modified : Bool
  date_modified_manually : Bool
  compound_name : String
  amount : Int
  unit : String
  frequency : String
  cycling_days_on : Option Int
  cycling_days_off : Option Int
  date_first_prescribed : Option String
  date_last_modified : Option String
  date_last_administered : Option String
  icon_type : String
deriving DecidableEq, Repr

/-- A persisted `Prescription` row as the UPDATE statements of
`save_changes` see it (dates as serialized strings). -/
structure StoredPrescription where
  compound_name : String
  amount : Int
  unit : String
  frequency : String
  cycling_days_on : Option Int
  cycling_days_off : Option Int
  date_first_prescribed : Option String
  date_last_modified : Option String
  date_last_administered : Option String
  icon_type : String
deriving DecidableEq, Repr

/-- The per-row effect of `PrescriptionList.save_changes` on an existing
prescription: `date_last_modified` is auto-set to today's date only for a
modified row with no manual date edit, and the UPDATE touches the
`date_first_prescribed`/`date_last_administered` columns only when a date
field was manually edited. -/
def save_row (today : String) (r : PrescRow) (stored : StoredPrescription) :
    StoredPrescription :=
  let date_last_modified :=
    if r.modified && !r.date_modified_manually then some today
    else r.date_last_modified
  if r.date_modified_manually then
    { compound_name := r.compound_name
      amount := r.amount
      unit := r.unit
      frequency := r.frequency
      cycling_days_on := r.cycling_days_on
      cycling_days_off := r.cycling_days_off
      date_first_prescribed := r.date_first_prescribed
      date_last_modified := date_last_modified
      date_last_administered := r.date_last_administered
      icon_type := r.icon_type }
  else
    { stored with
      compound_name := r.compound_name
      amount := r.amount
      unit := r.unit
      frequency := r.frequency
      cycling_days_on := r.cycling_days_on
      cycling_days_off := r.cycling_days_off
      date_last_modified := date_last_modified
      icon_type := r.icon_type }

theorem due_nonneg (p : Prescription) (d : Date) : 0 ≤ is_dose_due_on_date p d := by
  unfold is_dose_due_on_date
  omega

theorem due_le_two (p : Prescription) (d : Date) : is_dose_due_on_date p d ≤ 2 := by
  unfold is_dose_due_on_date
  omega

theorem due_eq_two_freq {p : Prescription} {d : Date}
    (h : is_dose_due_on_date p d = 2) : p.frequency = "twice-daily" := by
  by_cases hf : p.frequency = "twice-daily"
  · exact hf
  · exfalso
    unfold is_dose_due_on_date at h
    by_cases hc : cycling_off_phase p d
    · rw [if_pos hc] at h; omega
    · rw [if_neg hc] at h
      by_cases hd : p.frequency = "daily"
      · rw [if_pos hd] at h; omega
      · rw [if_neg hd, if_neg hf] at h
        omega

theorem countAdministered_nonneg (ledger : List DoseEvent) (pid rid : Int)
    (d : Date) (b : Bool) : 0 ≤ countAdministered ledger pid rid d b := by
  unfold countAdministered
  positivity

theorem countAdministered_append (l1 l2 : List DoseEvent) (pid rid : Int)
    (d : Date) (b : Bool) :
    countAdministered (l1 ++ l2) pid rid d b
      = countAdministered l1 pid rid d b + countAdministered l2 pid rid d b := by
  unfold countAdministered
  rw [List.filter_append, List.length_append]
  push_cast
  ring

theorem countAdministered_true_le_false (ledger : List DoseEvent)
    (pid rid : Int) (d : Date) :
    countAdministered ledger pid rid d true ≤ countAdministered ledger pid rid d false := by
  unfold countAdministered
  have : ∀ l : List DoseEvent,
      (l.filter (fun e =>
        decide (e.person_id = pid ∧ e.prescription_id = rid ∧ e.date_administered = d)
          && (!true || decide (0 < e.amount)))).length
      ≤ (l.filter (fun e =>
        decide (e.person_id = pid ∧ e.prescription_id = rid ∧ e.date_administered = d)
          && (!false || decide (0 < e.amount)))).length := by
    intro l
    induction l with
    | nil => simp
    | cons a t ih =>
      simp only [List.filter_cons]
      split_ifs with h1 h2 <;> simp_all
      omega
  exact_mod_cast this ledger

theorem last_day_of_month_eq (d : Date) (h1 : 1 ≤ d.month) (h2 : d.month ≤ 12) :
    last_day_of_month d = daysInMonth d.year d.month := by
  obtain ⟨y, m, day⟩ := d
  dsimp only at h1 h2 ⊢
  interval_cases m
  · have h4 : addDays ⟨y, 1, 28⟩ 4 = ⟨y, 2, 1⟩ := by
      norm_num [addDays, nextDay, daysInMonth]
    norm_num [last_day_of_month, h4, subDays, prevDay, daysInMonth]
  · by_cases hL : isLeap y
    · have h4 : addDays ⟨y, 2, 28⟩ 4 = ⟨y, 3, 3⟩ := by
        norm_num [addDays, nextDay, daysInMonth, hL]
      norm_num [last_day_of_month, h4, subDays, prevDay, daysInMonth, hL]
    · have h4 : addDays ⟨y, 2, 28⟩ 4 = ⟨y, 3, 4⟩ := by
        norm_num [addDays, nextDay, daysInMonth, hL]
      norm_num [last_day_of_month, h4, subDays, prevDay, daysInMonth, hL]
  · have h4 : addDays ⟨y, 3, 28⟩ 4 = ⟨y, 4, 1⟩ := by
      norm_num [addDays, nextDay, daysInMonth]
    norm_num [last_day_of_month, h4, subDays, prevDay, daysInMonth]
  · have h4 : addDays ⟨y, 4, 28⟩ 4 = ⟨y, 5, 2⟩ := by
      norm_num [addDays, nextDay, daysInMonth]
    norm_num [last_day_of_month, h4, subDays, prevDay, daysInMonth]
  · have h4 : addDays ⟨y, 5, 28⟩ 4 = ⟨y, 6, 1⟩ := by
      norm_num [addDays, nextDay, daysInMonth]
    norm_num [last_day_of_month, h4, subDays, prevDay, daysInMonth]
  · have h4 : addDays ⟨y, 6, 28⟩ 4 = ⟨y, 7, 2⟩ := by
      norm_num [addDays, nextDay, daysInMonth]
    norm_num [last_day_of_month, h4, subDays, prevDay, daysInMonth]
  · have h4 : addDays ⟨y, 7, 28⟩ 4 = ⟨y, 8, 1⟩ := by
      norm_num [addDays, nextDay, daysInMonth]
    norm_num [last_day_of_month, h4, subDays, prevDay, daysInMonth]
  · have h4 : addDays ⟨y, 8, 28⟩ 4 = ⟨y, 9, 1⟩ := by
      norm_num [addDays, nextDay, daysInMonth]
    norm_num [last_day_of_month, h4, subDays, prevDay, daysInMonth]
  · have h4 : addDays ⟨y, 9, 28⟩ 4 = ⟨y, 10, 2⟩ := by
      norm_num [addDays, nextDay, daysInMonth]
    norm_num [last_day_of_month, h4, subDays, prevDay, daysInMonth]
  · have h4 : addDays ⟨y, 10, 28⟩ 4 = ⟨y, 11, 1⟩ := by
      norm_num [addDays, nextDay, daysInMonth]
    norm_num [last_day_of_month, h4, subDays, prevDay, daysInMonth]
  · have h4 : addDays ⟨y, 11, 28⟩ 4 = ⟨y, 12, 2⟩ := by
      norm_num [addDays, nextDay, daysInMonth]
    norm_num [last_day_of_month, h4, subDays, prevDay, daysInMonth]
  · have h4 : addDays ⟨y, 12, 28⟩ 4 = ⟨y + 1, 1, 1⟩ := by
      norm_num [addDays, nextDay, daysInMonth]
    norm_num [last_day_of_month, h4, subDays, prevDay, daysInMonth]

theorem cycling_off_phase_day {p : Prescription} (d : Date) {don doff : Int}
    (hon : p.cycling_days_on = some don) (hoff : p.cycling_days_off = some doff)
    (h1 : 0 < don) (h2 : 0 < doff)
    (hf : p.frequency = "daily" ∨ p.frequency = "twice-daily") :
    cycling_off_phase p d
      = decide (don ≤ Int.fmod (dateSub d p.date_first_prescribed) (don + doff)) := by
  have hne : don ≠ 0 := by omega
  have hne2 : doff ≠ 0 := by omega
  rcases hf with hf | hf <;>
    simp [cycling_off_phase, hon, hoff, truthyOpt, hf, hne, hne2]

theorem cycling_off_phase_week {p : Prescription} (d : Date) {don doff : Int}
    (hon : p.cycling_days_on = some don) (hoff : p.cycling_days_off = some doff)
    (h1 : 0 < don) (h2 : 0 < doff)
    (hf : p.frequency ∈ weekly_frequencies) :
    cycling_off_phase p d
      = decide (don ≤ Int.fmod (Int.fdiv (dateSub d p.date_first_prescribed) 7)
          (don + doff)) := by
  have hne : don ≠ 0 := by omega
  have hne2 : doff ≠ 0 := by omega
  have hf' : p.frequency = "weekly" ∨ p.frequency = "M,W,F"
      ∨ p.frequency = "M,TH" ∨ p.frequency = "MTWTHF" := by
    simpa [weekly_frequencies] using hf
  rcases hf' with hf' | hf' | hf' | hf' <;>
    simp [cycling_off_phase, hon, hoff, truthyOpt, hf', hne, hne2, weekly_frequencies]

/-- C5: with cycling parameters present and positive and a date on or after
the anchor, a daily/twice-daily prescription is due 0 exactly in the OFF
phase (`(date - anchor) mod (on + off) >= on`) and the schedule is periodic
with period `on + off` days; a weekly-family prescription is due 0 whenever
`floor((date - anchor)/7) mod (on + off) >= on`; and the cycling overlay
never increases a due count. -/
theorem claim_C5 :
    (∀ (p : Prescription) (d : Date) (don doff : Int),
      p.cycling_days_on = some don → p.cycling_days_off = some doff →
      0 < don → 0 < doff →
      (p.frequency = "daily" ∨ p.frequency = "twice-daily") →
      dateLe p.date_first_prescribed d →
        ((is_dose_due_on_date p d = 0
          ↔ don ≤ Int.fmod (dateSub d p.date_first_prescribed) (don + doff))
        ∧ (Valid d →
            is_dose_due_on_date p (addDays d (don + doff).toNat)
              = is_dose_due_on_date p d)))
    ∧ (∀ (p : Prescription) (d : Date) (don doff : Int),
      p.cycling_days_on = some don → p.cycling_days_off = some doff →
      0 < don → 0 < doff →
      p.frequency ∈ weekly_frequencies →
      don ≤ Int.fmod (Int.fdiv (dateSub d p.date_first_prescribed) 7) (don + doff) →
        is_dose_due_on_date p d = 0)
    ∧ (∀ (p : Prescription) (d : Date),
        is_dose_due_on_date p d
          ≤ is_dose_due_on_date
              { p with cycling_days_on := none, cycling_days_off := none } d) := by
  refine ⟨?_, ?_, ?_⟩
  · intro p d don doff hon hoff h1 h2 hf hle
    have hcyc := cycling_off_phase_day d hon hoff h1 h2 hf
    constructor
    · constructor
      · intro h0
        by_contra hph
        have hfalse : cycling_off_phase p d = false := by
          rw [hcyc]; simpa using hph
        unfold is_dose_due_on_date at h0
        rcases hf with hf | hf <;> simp [hfalse, hf, hle] at h0
      · intro hph
        have htrue : cycling_off_phase p d = true := by
          rw [hcyc]; simpa using hph
        unfold is_dose_due_on_date
        rw [if_pos htrue]
    · intro hv
      have hle' : dateLe p.date_first_prescribed (addDays d (don + doff).toNat) :=
        dateLe_trans hle (dateLe_addDays d _)
      have hcyc' := cycling_off_phase_day (addDays d (don + doff).toNat) hon hoff h1 h2 hf
      have hsub : dateSub (addDays d (don + doff).toNat) p.date_first_prescribed
          = dateSub d p.date_first_prescribed + (don + doff) := by
        rw [dateSub_addDays hv]
        rw [Int.toNat_of_nonneg (by omega)]
      have hmod : Int.fmod (dateSub d p.date_first_prescribed + (don + doff)) (don + doff)
          = Int.fmod (dateSub d p.date_first_prescribed) (don + doff) := by
        rw [Int.fmod_eq_emod _ (by omega : (0:Int) ≤ don + doff),
            Int.fmod_eq_emod _ (by omega : (0:Int) ≤ don + doff),
            show dateSub d p.date_first_prescribed + (don + doff)
              = dateSub d p.date_first_prescribed + 1 * (don + doff) by ring,
            Int.add_mul_emod_self]
      by_cases hph : don ≤ Int.fmod (dateSub d p.date_first_prescribed) (don + doff)
      · have e1 : cycling_off_phase p (addDays d (don + doff).toNat) = true := by
          rw [hcyc', hsub, hmod]; simpa using hph
        have e2 : cycling_off_phase p d = true := by
          rw [hcyc]; simpa using hph
        unfold is_dose_due_on_date
        rw [if_pos e1, if_pos e2]
      · have e1 : cycling_off_phase p (addDays d (don + doff).toNat) = false := by
          rw [hcyc', hsub, hmod]; simpa using hph
        have e2 : cycling_off_phase p d = false := by
          rw [hcyc]; simpa using hph
        rcases hf with hf | hf <;>
          simp [is_dose_due_on_date, e1, e2, hf, hle, hle']
  · intro p d don doff hon hoff h1 h2 hf hph
    have hcyc := cycling_off_phase_week d hon hoff h1 h2 hf
    have htrue : cycling_off_phase p d = true := by
      rw [hcyc]; simpa using hph
    unfold is_dose_due_on_date
    rw [if_pos htrue]
  · intro p d
    by_cases hc : cycling_off_phase p d
    · have h0 : is_dose_due_on_date p d = 0 := by
        unfold is_dose_due_on_date; rw [if_pos hc]
      rw [h0]
      exact due_nonneg _ _
    · have hc2 : cycling_off_phase
          { p with cycling_days_on := none, cycling_days_off := none } d = false := by
        simp [cycling_off_phase, truthyOpt]
      have hc2' : ¬ (cycling_off_phase
          { p with cycling_days_on := none, cycling_days_off := none } d = true) := by
        simp [hc2]
      have heq : is_dose_due_on_date p d
          = is_dose_due_on_date
              { p with cycling_days_on := none, cycling_days_off := none } d := by
        unfold is_dose_due_on_date
        rw [if_neg hc, if_neg hc2']
      exact le_of_eq heq

/-- Witness for C5 at concrete inputs: daily prescription with cycling
on=5/off=2 anchored 2024-01-01 evaluated on 2024-01-06 (phase 5, OFF), its
period-7 repetition, a weekly prescription with cycling on=2/off=1 in week
phase 2, and the overlay-never-increases inequality. -/
theorem claim_C5_witness :
    ((is_dose_due_on_date
        ⟨1, ⟨2024, 1, 1⟩, none, "A", 1, "mg", "daily", some 5, some 2, "i"⟩
        ⟨2024, 1, 6⟩ = 0
      ↔ 5 ≤ Int.fmod (dateSub ⟨2024, 1, 6⟩ ⟨2024, 1, 1⟩) (5 + 2))
    ∧ is_dose_due_on_date
        ⟨1, ⟨2024, 1, 1⟩, none, "A", 1, "mg", "daily", some 5, some 2, "i"⟩
        (addDays ⟨2024, 1, 6⟩ ((5 + 2 : Int)).toNat)
      = is_dose_due_on_date
        ⟨1, ⟨2024, 1, 1⟩, none, "A", 1, "mg", "daily", some 5, some 2, "i"⟩
        ⟨2024, 1, 6⟩)
    ∧ is_dose_due_on_date
        ⟨1, ⟨2024, 1, 1⟩, none, "A", 1, "mg", "weekly", some 2, some 1, "i"⟩
        ⟨2024, 1, 15⟩ = 0
    ∧ is_dose_due_on_date
        ⟨1, ⟨2024, 1, 1⟩, none, "A", 1, "mg", "daily", some 5, some 2, "i"⟩
        ⟨2024, 1, 6⟩
      ≤ is_dose_due_on_date
        ⟨1, ⟨2024, 1, 1⟩, none, "A", 1, "mg", "daily", none, none, "i"⟩
        ⟨2024, 1, 6⟩ :=
  ⟨⟨(claim_C5.1 ⟨1, ⟨2024, 1, 1⟩, none, "A", 1, "mg", "daily", some 5, some 2, "i"⟩
      ⟨2024, 1, 6⟩ 5 2 rfl rfl (by decide) (by decide) (Or.inl rfl) (by decide)).1,
    (claim_C5.1 ⟨1, ⟨2024, 1, 1⟩, none, "A", 1, "mg", "daily", some 5, some 2, "i"⟩
      ⟨2024, 1, 6⟩ 5 2 rfl rfl (by decide) (by decide) (Or.inl rfl) (by decide)).2
      (by decide)⟩,
   claim_C5.2.1 ⟨1, ⟨2024, 1, 1⟩, none, "A", 1, "mg", "weekly", some 2, some 1, "i"⟩
      ⟨2024, 1, 15⟩ 2 1 rfl rfl (by decide) (by decide) (by decide) (by decide),
   claim_C5.2.2 ⟨1, ⟨2024, 1, 1⟩, none, "A", 1, "mg", "daily", some 5, some 2, "i"⟩
      ⟨2024, 1, 6⟩⟩

theorem cycling_off_phase_other {p : Prescription} (d : Date)
    (hf : p.frequency = "monthly" ∨ p.frequency = "quarterly") :
    cycling_off_phase p d = false := by
  rcases hf with hf | hf <;>
    simp [cycling_off_phase, hf, weekly_frequencies]

theorem due_monthly {p : Prescription} {d : Date} (hf : p.frequency = "monthly") :
    is_dose_due_on_date p d
      = if dateLe p.date_first_prescribed d then
          (if d.day = p.date_first_prescribed.day ∨
              (d.day = last_day_of_month d ∧ p.date_first_prescribed.day > d.day)
           then 1 else 0)
        else 0 := by
  have hcyc := cycling_off_phase_other d (Or.inl hf)
  unfold is_dose_due_on_date
  simp [hcyc, hf]

theorem due_quarterly {p : Prescription} {d : Date} (hf : p.frequency = "quarterly") :
    is_dose_due_on_date p d
      = if dateLe p.date_first_prescribed d then
          (if Int.fmod ((d.year - p.date_first_prescribed.year) * 12
                + d.month - p.date_first_prescribed.month) 3 = 0 then
            (if d.day = p.date_first_prescribed.day ∨
                (d.day = last_day_of_month d ∧ p.date_first_prescribed.day > d.day)
             then 1 else 0)
           else 0)
        else 0 := by
  have hcyc := cycling_off_phase_other d (Or.inr hf)
  unfold is_dose_due_on_date
  simp [hcyc, hf]

/-- C6: for a monthly prescription on or after the anchor, the due count is
1 exactly when the day-of-month matches the anchor's, or the date is the
last day of its month and the anchor's day exceeds that month's length; and
`last_day_of_month` (day 28 plus 4 days, then back to the month boundary)
returns the true month length for every month, leap Februaries included. -/
theorem claim_C6 :
    (∀ (p : Prescription) (d : Date),
      p.frequency = "monthly" → Valid d → dateLe p.date_first_prescribed d →
        (is_dose_due_on_date p d = 1
          ↔ (d.day = p.date_first_prescribed.day
             ∨ (d.day = daysInMonth d.year d.month
                ∧ daysInMonth d.year d.month < p.date_first_prescribed.day))))
    ∧ (∀ d : Date, Valid d → last_day_of_month d = daysInMonth d.year d.month) := by
  constructor
  · intro p d hf hv hle
    have hld : last_day_of_month d = daysInMonth d.year d.month :=
      last_day_of_month_eq d hv.1 hv.2.1
    rw [due_monthly hf, if_pos hle, hld]
    by_cases hA : d.day = p.date_first_prescribed.day
        ∨ (d.day = daysInMonth d.year d.month ∧ p.date_first_prescribed.day > d.day)
    · rw [if_pos hA]
      exact iff_of_true rfl (by omega)
    · rw [if_neg hA]
      exact iff_of_false (by omega) (by omega)
  · intro d hv
    exact last_day_of_month_eq d hv.1 hv.2.1

/-- Witness for C6 at concrete inputs: monthly prescription anchored
2024-01-31 is due on 2024-02-29 (leap-February clamp), and
`last_day_of_month` of 2024-02-29 is the true month length 29. -/
theorem claim_C6_witness :
    (is_dose_due_on_date
        ⟨1, ⟨2024, 1, 31⟩, none, "A", 1, "mg", "monthly", none, none, "i"⟩
        ⟨2024, 2, 29⟩ = 1
      ↔ ((29 : Int) = 31
          ∨ ((29 : Int) = daysInMonth 2024 2 ∧ daysInMonth 2024 2 < 31)))
    ∧ last_day_of_month ⟨2024, 2, 29⟩ = daysInMonth 2024 2 :=
  ⟨claim_C6.1 ⟨1, ⟨2024, 1, 31⟩, none, "A", 1, "mg", "monthly", none, none, "i"⟩
      ⟨2024, 2, 29⟩ rfl (by decide) (by decide),
   claim_C6.2 ⟨2024, 2, 29⟩ (by decide)⟩

/-- C7: for a quarterly prescription on or after the anchor, the due count
is 1 exactly when the monthly day-of-month rule (with month-end clamp)
holds and the month difference from the anchor is divisible by 3. -/
theorem claim_C7 (p : Prescription) (d : Date) (hf : p.frequency = "quarterly")
    (hv : Valid d) (hle : dateLe p.date_first_prescribed d) :
    is_dose_due_on_date p d = 1
      ↔ ((d.day = p.date_first_prescribed.day
          ∨ (d.day = daysInMonth d.year d.month
             ∧ daysInMonth d.year d.month < p.date_first_prescribed.day))
         ∧ Int.fmod ((d.year - p.date_first_prescribed.year) * 12
              + d.month - p.date_first_prescribed.month) 3 = 0) := by
  have hld : last_day_of_month d = daysInMonth d.year d.month :=
    last_day_of_month_eq d hv.1 hv.2.1
  rw [due_quarterly hf, if_pos hle, hld]
  by_cases hm3 : Int.fmod ((d.year - p.date_first_prescribed.year) * 12
      + d.month - p.date_first_prescribed.month) 3 = 0
  · rw [if_pos hm3]
    by_cases hA : d.day = p.date_first_prescribed.day
        ∨ (d.day = daysInMonth d.year d.month ∧ p.date_first_prescribed.day > d.day)
    · rw [if_pos hA]
      exact iff_of_true rfl ⟨by omega, hm3⟩
    · rw [if_neg hA]
      exact iff_of_false (by omega) (fun hc => by omega)
  · rw [if_neg hm3]
    exact iff_of_false (by omega) (fun hc => hm3 hc.2)

/-- Witness for C7 at a concrete input: quarterly prescription anchored
2024-01-15 evaluated on 2024-04-15 (month difference 3). -/
theorem claim_C7_witness :
    is_dose_due_on_date
        ⟨1, ⟨2024, 1, 15⟩, none, "A", 1, "mg", "quarterly", none, none, "i"⟩
        ⟨2024, 4, 15⟩ = 1
      ↔ (((15 : Int) = 15
          ∨ ((15 : Int) = daysInMonth 2024 4 ∧ daysInMonth 2024 4 < 15))
         ∧ Int.fmod ((2024 - 2024) * 12 + 4 - 1) 3 = 0) :=
  claim_C7 ⟨1, ⟨2024, 1, 15⟩, none, "A", 1, "mg", "quarterly", none, none, "i"⟩
    ⟨2024, 4, 15⟩ rfl (by decide) (by decide)

/-- C4: for every prescription (every frequency kind, with or without
cycling parameters) and every date strictly before the anchor
`date_first_prescribed`, the due count is 0. -/
theorem claim_C4 (p : Prescription) (d : Date)
    (h : dateLt d p.date_first_prescribed) : is_dose_due_on_date p d = 0 := by
  have hle := not_dateLe_of_dateLt h
  unfold is_dose_due_on_date
  simp [hle]

/-- Witness for C4 at a concrete input: a daily prescription anchored at
2024-01-05 is not due on 2024-01-04. -/
theorem claim_C4_witness :
    is_dose_due_on_date
      ⟨1, ⟨2024, 1, 5⟩, none, "A", 1, "mg", "daily", none, none, "i"⟩
      ⟨2024, 1, 4⟩ = 0 :=
  claim_C4 ⟨1, ⟨2024, 1, 5⟩, none, "A", 1, "mg", "daily", none, none, "i"⟩
    ⟨2024, 1, 4⟩ (by decide)

/-- C10: for every prescription and date the due count is 0, 1 or 2, and it
is 2 only for the twice-daily frequency. -/
theorem claim_C10 (p : Prescription) (d : Date) :
    (is_dose_due_on_date p d = 0 ∨ is_dose_due_on_date p d = 1
      ∨ is_dose_due_on_date p d = 2)
    ∧ (is_dose_due_on_date p d = 2 → p.frequency = "twice-daily") := by
  have h1 := due_nonneg p d
  have h2 := due_le_two p d
  exact ⟨by omega, due_eq_two_freq⟩

/-- Witness for C10 at a concrete input: a twice-daily prescription due
count of 2 certifies the twice-daily frequency. -/
theorem claim_C10_witness :
    (⟨1, ⟨2024, 1, 1⟩, none, "A", 1, "mg", "twice-daily", none, none, "i"⟩ :
      Prescription).frequency = "twice-daily" :=
  (claim_C10 ⟨1, ⟨2024, 1, 1⟩, none, "A", 1, "mg", "twice-daily", none, none, "i"⟩
    ⟨2024, 1, 2⟩).2 (by decide)

/-- Counterexample to C1 as stated: with a daily prescription due once on
2024-01-02 and two positive-amount ledger rows for that day, the computed
remaining value is `1 - 2 = -1`, which is negative and differs from
`max(expected - administered, 0) = 0`. -/
theorem claim_C1_counterexample :
    remaining_doses
      ⟨1, ⟨2024, 1, 1⟩, none, "A", 1, "mg", "daily", none, none, "i"⟩ 7
      ⟨2024, 1, 2⟩
      [⟨7, 1, ⟨2024, 1, 2⟩, "A", 1, "mg", 1⟩, ⟨7, 1, ⟨2024, 1, 2⟩, "A", 1, "mg", 2⟩] < 0
    ∧ remaining_doses
      ⟨1, ⟨2024, 1, 1⟩, none, "A", 1, "mg", "daily", none, none, "i"⟩ 7
      ⟨2024, 1, 2⟩
      [⟨7, 1, ⟨2024, 1, 2⟩, "A", 1, "mg", 1⟩, ⟨7, 1, ⟨2024, 1, 2⟩, "A", 1, "mg", 2⟩]
      ≠ max (is_dose_due_on_date
              ⟨1, ⟨2024, 1, 1⟩, none, "A", 1, "mg", "daily", none, none, "i"⟩
              ⟨2024, 1, 2⟩
            - countAdministered
              [⟨7, 1, ⟨2024, 1, 2⟩, "A", 1, "mg", 1⟩, ⟨7, 1, ⟨2024, 1, 2⟩, "A", 1, "mg", 2⟩]
              7 1 ⟨2024, 1, 2⟩ true) 0 := by
  decide

/-- C1 (amended): the reconciliation step computes
`remaining = expected - administered` with no clamp; appending a further
ledger event never increases it, and whenever it is positive (the only case
the dashboard surfaces) it coincides with `max(expected - administered, 0)`. -/
theorem claim_C1_amended (p : Prescription) (pid : Int) (d : Date)
    (l : List DoseEvent) (e : DoseEvent) :
    remaining_doses p pid d (l ++ [e]) ≤ remaining_doses p pid d l
    ∧ (0 < remaining_doses p pid d l →
        remaining_doses p pid d l
          = max (is_dose_due_on_date p d - countAdministered l pid p.id d true) 0) := by
  constructor
  · unfold remaining_doses
    rw [countAdministered_append]
    have := countAdministered_nonneg [e] pid p.id d true
    omega
  · intro h
    unfold remaining_doses at *
    omega

/-- Witness for C1 (amended) at a concrete input: daily prescription, empty
ledger, one appended event. -/
theorem claim_C1_amended_witness :
    remaining_doses
        ⟨1, ⟨2024, 1, 1⟩, none, "A", 1, "mg", "daily", none, none, "i"⟩ 7
        ⟨2024, 1, 2⟩ ([] ++ [⟨7, 1, ⟨2024, 1, 2⟩, "A", 1, "mg", 1⟩])
      ≤ remaining_doses
        ⟨1, ⟨2024, 1, 1⟩, none, "A", 1, "mg", "daily", none, none, "i"⟩ 7
        ⟨2024, 1, 2⟩ []
    ∧ remaining_doses
        ⟨1, ⟨2024, 1, 1⟩, none, "A", 1, "mg", "daily", none, none, "i"⟩ 7
        ⟨2024, 1, 2⟩ []
      = max (is_dose_due_on_date
              ⟨1, ⟨2024, 1, 1⟩, none, "A", 1, "mg", "daily", none, none, "i"⟩
              ⟨2024, 1, 2⟩
            - countAdministered [] 7
              (⟨1, ⟨2024, 1, 1⟩, none, "A", 1, "mg", "daily", none, none, "i"⟩ :
                Prescription).id ⟨2024, 1, 2⟩ true) 0 :=
  ⟨(claim_C1_amended _ 7 _ [] _).1,
   (claim_C1_amended _ 7 _ [] ⟨7, 1, ⟨2024, 1, 2⟩, "A", 1, "mg", 1⟩).2 (by decide)⟩

/-- C9: in `save_changes`, a modified row without a manual date edit gets
`date_last_modified` set to the clock date while the other two date columns
are left untouched in the store; a row with a manual date edit has all
three date fields persisted verbatim from the user's input. -/
theorem claim_C9 :
    (∀ (today : String) (r : PrescRow) (stored : StoredPrescription),
      r.modified = true → r.date_modified_manually = false →
        (save_row today r stored).date_last_modified = some today
        ∧ (save_row today r stored).date_first_prescribed
            = stored.date_first_prescribed
        ∧ (save_row today r stored).date_last_administered
            = stored.date_last_administered)
    ∧ (∀ (today : String) (r : PrescRow) (stored : StoredPrescription),
      r.date_modified_manually = true →
        (save_row today r stored).date_first_prescribed = r.date_first_prescribed
        ∧ (save_row today r stored).date_last_modified = r.date_last_modified
        ∧ (save_row today r stored).date_last_administered
            = r.date_last_administered) := by
  constructor
  · intro today r stored hm hd
    simp [save_row, hm, hd]
  · intro today r stored hd
    simp [save_row, hd]

/-- Witness for C9 at concrete inputs: one modified row without a date
touch, one row with a manual date edit. -/
theorem claim_C9_witness :
    ((save_row "2024-05-01"
        ⟨true, false, "A", 1, "mg", "daily", none, none,
          some "2024-01-01", some "2024-02-01", none, "i"⟩
        ⟨"A", 1, "mg", "daily", none, none,
          some "2024-01-01", some "2024-02-01", none, "i"⟩).date_last_modified
      = some "2024-05-01"
    ∧ (save_row "2024-05-01"
        ⟨true, false, "A", 1, "mg", "daily", none, none,
          some "2024-01-01", some "2024-02-01", none, "i"⟩
        ⟨"A", 1, "mg", "daily", none, none,
          some "2024-01-01", some "2024-02-01", none, "i"⟩).date_first_prescribed
      = some "2024-01-01"
    ∧ (save_row "2024-05-01"
        ⟨true, false, "A", 1, "mg", "daily", none, none,
          some "2024-01-01", some "2024-02-01", none, "i"⟩
        ⟨"A", 1, "mg", "daily", none, none,
          some "2024-01-01", some "2024-02-01", none, "i"⟩).date_last_administered
      = none)
    ∧ ((save_row "2024-05-01"
        ⟨true, true, "A", 1, "mg", "daily", none, none,
          some "2024-03-03", some "2024-03-04", some "2024-03-05", "i"⟩
        ⟨"A", 1, "mg", "daily", none, none,
          some "2024-01-01", some "2024-02-01", none, "i"⟩).date_first_prescribed
      = some "2024-03-03"
    ∧ (save_row "2024-05-01"
        ⟨true, true, "A", 1, "mg", "daily", none, none,
          some "2024-03-03", some "2024-03-04", some "2024-03-05", "i"⟩
        ⟨"A", 1, "mg", "daily", none, none,
          some "2024-01-01", some "2024-02-01", none, "i"⟩).date_last_modified
      = some "2024-03-04"
    ∧ (save_row "2024-05-01"
        ⟨true, true, "A", 1, "mg", "daily", none, none,
          some "2024-03-03", some "2024-03-04", some "2024-03-05", "i"⟩
        ⟨"A", 1, "mg", "daily", none, none,
          some "2024-01-01", some "2024-02-01", none, "i"⟩).date_last_administered
      = some "2024-03-05") :=
  ⟨claim_C9.1 "2024-05-01" _ _ rfl rfl, claim_C9.2 "2024-05-01" _ _ rfl⟩

theorem due_dla (p : Prescription) (t : Option Date) (d : Date) :
    is_dose_due_on_date { p with date_last_administered := t } d
      = is_dose_due_on_date p d := rfl

theorem countAdministered_events (pid rid : Int) (d : Date) (name u : String)
    (amt : Int) (hamt : 0 < amt) (k : Nat) :
    countAdministered ((List.range k).map
      (fun i : Nat => ⟨pid, rid, d, name, amt, u, (i : Int) + 1⟩)) pid rid d true = k := by
  unfold countAdministered
  have hall : ∀ e ∈ (List.range k).map
      (fun i : Nat => (⟨pid, rid, d, name, amt, u, (i : Int) + 1⟩ : DoseEvent)),
      (decide (e.person_id = pid ∧ e.prescription_id = rid ∧ e.date_administered = d)
        && (!true || decide (0 < e.amount))) = true := by
    intro e he
    simp only [List.mem_map] at he
    obtain ⟨i, hi, rfl⟩ := he
    simp [hamt]
  rw [List.filter_eq_self.mpr hall, List.length_map, List.length_range]

theorem except_bind_ok {ε α β : Type} (a : α) (f : α → Except ε β) :
    Except.bind (Except.ok a) f = f a := rfl

theorem administer_flow_ok (pid : Int) (q : Prescription) (d : Date)
    (l : List DoseEvent)
    (hrem : 0 < is_dose_due_on_date q d - countAdministered l pid q.id d true) :
    administer_flow pid q d l = Except.ok
      (l ++ [⟨pid, q.id, d, q.compound_name, q.amount, q.unit,
         is_dose_due_on_date q d
           - (is_dose_due_on_date q d - countAdministered l pid q.id d true) + 1⟩],
       { q with date_last_administered := some d }) := by
  have hexp : 0 < is_dose_due_on_date q d := by
    have := countAdministered_nonneg l pid q.id d true
    omega
  unfold administer_flow administer_dose_quick
  rw [if_pos hexp, if_pos hrem]

theorem administer_flow_err (pid : Int) (q : Prescription) (d : Date)
    (l : List DoseEvent)
    (hrem : is_dose_due_on_date q d - countAdministered l pid q.id d true ≤ 0) :
    administer_flow pid q d l = Except.error OverdoseError.overdose := by
  unfold administer_flow
  by_cases hexp : 0 < is_dose_due_on_date q d
  · rw [if_pos hexp, if_neg (by omega)]
  · rw [if_neg hexp]

theorem administerTimes_ok (pid : Int) (p : Prescription) (d : Date)
    (l0 : List DoseEvent) (n : Nat) (hn : (n : Int) = is_dose_due_on_date p d)
    (hamt : 0 < p.amount)
    (hclean : countAdministered l0 pid p.id d true = 0) :
    ∀ k : Nat, k ≤ n →
      administerTimes pid d k (l0, p)
        = Except.ok (l0 ++ (List.range k).map
            (fun i : Nat =>
              ⟨pid, p.id, d, p.compound_name, p.amount, p.unit, (i : Int) + 1⟩),
           if k = 0 then p else { p with date_last_administered := some d }) := by
  intro k
  induction k with
  | zero => intro _; simp [administerTimes]
  | succ k ih =>
    intro hk
    have hk' : k ≤ n := by omega
    have hcount : countAdministered (l0 ++ (List.range k).map
        (fun i : Nat =>
          (⟨pid, p.id, d, p.compound_name, p.amount, p.unit, (i : Int) + 1⟩ : DoseEvent)))
        pid p.id d true = (k : Int) := by
      rw [countAdministered_append, hclean,
        countAdministered_events pid p.id d p.compound_name p.unit p.amount hamt k]
      omega
    rw [administerTimes, ih hk', except_bind_ok]
    dsimp only
    by_cases hk0 : k = 0
    · subst hk0
      rw [if_pos rfl]
      rw [administer_flow_ok pid p d _ (by rw [hcount, ← hn]; push_cast; omega)]
      rw [if_neg (by omega : ¬ (0 + 1 = 0))]
      simp only [Except.ok.injEq, Prod.mk.injEq, List.range_succ]
      refine ⟨?_, trivial⟩
      simp only [List.range_zero, List.map_nil, List.map_append, List.map_cons,
        List.append_nil, List.nil_append, List.append_assoc]
      congr 2
      simp only [DoseEvent.mk.injEq, true_and, and_true]
      rw [hclean, ← hn]
      push_cast
      omega
    · rw [if_neg hk0]
      have hdue : is_dose_due_on_date { p with date_last_administered := some d } d
          = is_dose_due_on_date p d := due_dla p (some d) d
      rw [administer_flow_ok pid _ d _ (by
        dsimp only
        rw [hdue, hcount, ← hn]
        omega)]
      rw [if_neg (by omega : ¬ (k + 1 = 0))]
      simp only [Except.ok.injEq, Prod.mk.injEq, List.range_succ]
      refine ⟨?_, trivial⟩
      dsimp only
      simp only [List.map_append, List.map_cons, List.map_nil, List.append_assoc]
      congr 3
      simp only [DoseEvent.mk.injEq, true_and, and_true]
      rw [hdue, hcount, ← hn]
      omega


/-- Counterexample to C2 as stated: for a zero-amount prescription (amount
0 passes validation and is the new-row default) with daily frequency, so
dueCount n = 1, the inserted events never satisfy the `amount > 0` count
filter, so remaining never decreases: the (n+1)-th administer attempt does
not fail with OverdoseError — it succeeds and appends a second event that
again carries doseNumber 1. -/
theorem claim_C2_counterexample :
    administerTimes 7 ⟨2024, 1, 2⟩ (1 + 1)
        ([], ⟨1, ⟨2024, 1, 1⟩, none, "A", 0, "mg", "daily", none, none, "i"⟩)
      = Except.ok
          ([⟨7, 1, ⟨2024, 1, 2⟩, "A", 0, "mg", 1⟩,
            ⟨7, 1, ⟨2024, 1, 2⟩, "A", 0, "mg", 1⟩],
           ⟨1, ⟨2024, 1, 1⟩, some ⟨2024, 1, 2⟩, "A", 0, "mg", "daily", none, none, "i"⟩)
    ∧ administerTimes 7 ⟨2024, 1, 2⟩ (1 + 1)
        ([], ⟨1, ⟨2024, 1, 1⟩, none, "A", 0, "mg", "daily", none, none, "i"⟩)
      ≠ Except.error OverdoseError.overdose := by
  decide

/-- C2 (amended): for a prescription with a positive dose amount, dueCount
n > 0 and an initially empty ledger for the day, n successive administer
attempts succeed and append events numbered 1..n (each computed as
expected - remainingBefore + 1, with date_last_administered updated to the
date), and the (n+1)-th attempt fails with OverdoseError, appending
nothing. For a zero-amount prescription the inserted events never count as
administered, so the failure clause does not hold. -/
theorem claim_C2 (pid : Int) (p : Prescription) (d : Date) (l0 : List DoseEvent)
    (n : Nat) (hn : (n : Int) = is_dose_due_on_date p d) (hpos : 0 < n)
    (hamt : 0 < p.amount)
    (hclean : countAdministered l0 pid p.id d false = 0) :
    administerTimes pid d n (l0, p)
      = Except.ok (l0 ++ (List.range n).map
          (fun i : Nat =>
            ⟨pid, p.id, d, p.compound_name, p.amount, p.unit, (i : Int) + 1⟩),
         { p with date_last_administered := some d })
    ∧ administerTimes pid d (n + 1) (l0, p)
      = Except.error OverdoseError.overdose := by
  have hclean' : countAdministered l0 pid p.id d true = 0 := by
    have h1 := countAdministered_true_le_false l0 pid p.id d
    have h2 := countAdministered_nonneg l0 pid p.id d true
    omega
  have hfin := administerTimes_ok pid p d l0 n hn hamt hclean' n le_rfl
  rw [if_neg (by omega : ¬ n = 0)] at hfin
  refine ⟨hfin, ?_⟩
  rw [administerTimes, hfin, except_bind_ok]
  dsimp only
  apply administer_flow_err
  dsimp only
  have hdue := due_dla p (some d) d
  have hcount : countAdministered (l0 ++ (List.range n).map
      (fun i : Nat =>
        (⟨pid, p.id, d, p.compound_name, p.amount, p.unit, (i : Int) + 1⟩ : DoseEvent)))
      pid p.id d true = (n : Int) := by
    rw [countAdministered_append, hclean',
      countAdministered_events pid p.id d p.compound_name p.unit p.amount hamt n]
    omega
  rw [hdue, hcount, ← hn]
  omega


/-- Witness for C2 (amended) at a concrete input: a twice-daily
prescription of positive amount, empty ledger; two administrations succeed
with dose numbers 1 and 2, the third fails. -/
theorem claim_C2_witness :
    administerTimes 7 ⟨2024, 1, 2⟩ 2
        ([], ⟨1, ⟨2024, 1, 1⟩, none, "A", 1, "mg", "twice-daily", none, none, "i"⟩)
      = Except.ok ([] ++ (List.range 2).map
          (fun i : Nat => ⟨7, 1, ⟨2024, 1, 2⟩, "A", 1, "mg", (i : Int) + 1⟩),
         ⟨1, ⟨2024, 1, 1⟩, some ⟨2024, 1, 2⟩, "A", 1, "mg", "twice-daily", none, none, "i"⟩)
    ∧ administerTimes 7 ⟨2024, 1, 2⟩ (2 + 1)
        ([], ⟨1, ⟨2024, 1, 1⟩, none, "A", 1, "mg", "twice-daily", none, none, "i"⟩)
      = Except.error OverdoseError.overdose :=
  claim_C2 7 ⟨1, ⟨2024, 1, 1⟩, none, "A", 1, "mg", "twice-daily", none, none, "i"⟩
    ⟨2024, 1, 2⟩ [] 2 (by decide) (by decide) (by decide) (by decide)

theorem countAdministered_zero_events (pid rid : Int) (d : Date) (name u : String)
    (k : Nat) :
    countAdministered ((List.range k).map
      (fun i : Nat => ⟨pid, rid, d, name, 0, u, (i : Int) + 1⟩)) pid rid d false = k := by
  unfold countAdministered
  have hall : ∀ e ∈ (List.range k).map
      (fun i : Nat => (⟨pid, rid, d, name, 0, u, (i : Int) + 1⟩ : DoseEvent)),
      (decide (e.person_id = pid ∧ e.prescription_id = rid ∧ e.date_administered = d)
        && (!false || decide (0 < e.amount))) = true := by
    intro e he
    simp only [List.mem_map] at he
    obtain ⟨i, hi, rfl⟩ := he
    simp
  rw [List.filter_eq_self.mpr hall, List.length_map, List.length_range]

theorem countAdministered_le_backfill (pid : Int) (ps : List Prescription)
    (d : Date) (l : List DoseEvent) (pid2 rid2 : Int) (d2 : Date) (b : Bool) :
    countAdministered l pid2 rid2 d2 b
      ≤ countAdministered (backfillMissed pid ps d l) pid2 rid2 d2 b := by
  induction ps generalizing l with
  | nil => simp [backfillMissed]
  | cons q t ih =>
    unfold backfillMissed at ih ⊢
    rw [List.foldl_cons]
    refine le_trans ?_ (ih _)
    by_cases hg : 0 < is_dose_due_on_date q d
        ∧ countAdministered l pid q.id d false = 0
    · rw [if_pos hg, countAdministered_append]
      have := countAdministered_nonneg ((List.range (is_dose_due_on_date q d).toNat).map
        (fun i : Nat => ⟨pid, q.id, d, q.compound_name, 0, q.unit, (i : Int) + 1⟩))
        pid2 rid2 d2 b
      omega
    · rw [if_neg hg]

theorem backfill_covers (pid : Int) (ps : List Prescription) (d : Date)
    (l : List DoseEvent) :
    ∀ q ∈ ps, 0 < is_dose_due_on_date q d →
      countAdministered (backfillMissed pid ps d l) pid q.id d false ≠ 0 := by
  induction ps generalizing l with
  | nil => intro q hq; exact absurd hq (List.not_mem_nil q)
  | cons r t ih =>
    intro q hq hdue
    unfold backfillMissed
    rw [List.foldl_cons]
    rcases List.mem_cons.mp hq with rfl | hq'
    · -- q is the head; after its step the count for q is nonzero and only grows
      have hstep : 0 < countAdministered
          ((fun led (p : Prescription) =>
            let expected := is_dose_due_on_date p d
            if 0 < expected ∧ countAdministered led pid p.id d false = 0 then
              led ++ (List.range expected.toNat).map
                (fun i : Nat => ⟨pid, p.id, d, p.compound_name, 0, p.unit, (i : Int) + 1⟩)
            else led) l q) pid q.id d false := by
        dsimp only
        by_cases hg : 0 < is_dose_due_on_date q d
            ∧ countAdministered l pid q.id d false = 0
        · rw [if_pos hg, countAdministered_append, hg.2,
            countAdministered_zero_events pid q.id d q.compound_name q.unit
              (is_dose_due_on_date q d).toNat]
          omega
        · rw [if_neg hg]
          have hne : countAdministered l pid q.id d false ≠ 0 := by tauto
          have := countAdministered_nonneg l pid q.id d false
          omega
      have hmono := countAdministered_le_backfill pid t d
        ((fun led (p : Prescription) =>
          let expected := is_dose_due_on_date p d
          if 0 < expected ∧ countAdministered led pid p.id d false = 0 then
            led ++ (List.range expected.toNat).map
              (fun i : Nat => ⟨pid, p.id, d, p.compound_name, 0, p.unit, (i : Int) + 1⟩)
          else led) l q) pid q.id d false
      unfold backfillMissed at hmono
      dsimp only at hstep hmono ⊢
      omega
    · exact ih _ q hq' hdue

theorem backfill_no_op (pid : Int) (ps : List Prescription) (d : Date)
    (L : List DoseEvent)
    (h : ∀ q ∈ ps, 0 < is_dose_due_on_date q d →
        countAdministered L pid q.id d false ≠ 0) :
    backfillMissed pid ps d L = L := by
  induction ps with
  | nil => rfl
  | cons r t ih =>
    unfold backfillMissed
    rw [List.foldl_cons]
    have hstep : (if 0 < is_dose_due_on_date r d
        ∧ countAdministered L pid r.id d false = 0 then
          L ++ (List.range (is_dose_due_on_date r d).toNat).map
            (fun i : Nat => ⟨pid, r.id, d, r.compound_name, 0, r.unit, (i : Int) + 1⟩)
        else L) = L := by
      by_cases hdue : 0 < is_dose_due_on_date r d
      · rw [if_neg]
        intro hg
        exact h r (List.mem_cons_self r t) hdue hg.2
      · rw [if_neg]
        intro hg
        exact hdue hg.1
    dsimp only
    rw [hstep]
    have ht := ih (fun q hq => h q (List.mem_cons_of_mem r hq))
    unfold backfillMissed at ht
    exact ht

/-- C3: `backfillMissed` (modelled from the spec; the routine is absent from
`src/`) inserts one zero-amount placeholder per expected slot (doseNumber
1..expected) for a prescription with dueCount > 0 and no ledger record at
all for the day, skips the prescription's whole day when any record exists,
and is idempotent: a second invocation for the same date inserts nothing. -/
theorem claim_C3 :
    (∀ (pid : Int) (p : Prescription) (d : Date) (l : List DoseEvent),
      0 < is_dose_due_on_date p d →
      countAdministered l pid p.id d false = 0 →
        backfillMissed pid [p] d l
          = l ++ (List.range (is_dose_due_on_date p d).toNat).map
              (fun i : Nat => ⟨pid, p.id, d, p.compound_name, 0, p.unit, (i : Int) + 1⟩))
    ∧ (∀ (pid : Int) (p : Prescription) (d : Date) (l : List DoseEvent),
      countAdministered l pid p.id d false ≠ 0 →
        backfillMissed pid [p] d l = l)
    ∧ (∀ (pid : Int) (ps : List Prescription) (d : Date) (l : List DoseEvent),
        backfillMissed pid ps d (backfillMissed pid ps d l)
          = backfillMissed pid ps d l) := by
  refine ⟨?_, ?_, ?_⟩
  · intro pid p d l hdue hcnt
    unfold backfillMissed
    rw [List.foldl_cons, List.foldl_nil]
    dsimp only
    rw [if_pos ⟨hdue, hcnt⟩]
  · intro pid p d l hcnt
    unfold backfillMissed
    rw [List.foldl_cons, List.foldl_nil]
    dsimp only
    rw [if_neg (fun hg => hcnt hg.2)]
  · intro pid ps d l
    exact backfill_no_op pid ps d _ (backfill_covers pid ps d l)

/-- Witness for C3 at concrete inputs: a daily prescription with an empty
ledger gets one zero-amount placeholder; with an existing record the day is
skipped. -/
theorem claim_C3_witness :
    (backfillMissed 7 [⟨1, ⟨2024, 1, 1⟩, none, "A", 1, "mg", "daily", none, none, "i"⟩]
        ⟨2024, 1, 2⟩ []
      = [] ++ (List.range ((1 : Int)).toNat).map
          (fun i : Nat => ⟨7, 1, ⟨2024, 1, 2⟩, "A", 0, "mg", (i : Int) + 1⟩))
    ∧ (backfillMissed 7 [⟨1, ⟨2024, 1, 1⟩, none, "A", 1, "mg", "daily", none, none, "i"⟩]
        ⟨2024, 1, 2⟩ [⟨7, 1, ⟨2024, 1, 2⟩, "A", 0, "mg", 1⟩]
      = [⟨7, 1, ⟨2024, 1, 2⟩, "A", 0, "mg", 1⟩])
    ∧ backfillMissed 7 [⟨1, ⟨2024, 1, 1⟩, none, "A", 1, "mg", "daily", none, none, "i"⟩]
        ⟨2024, 1, 2⟩
        (backfillMissed 7 [⟨1, ⟨2024, 1, 1⟩, none, "A", 1, "mg", "daily", none, none, "i"⟩]
          ⟨2024, 1, 2⟩ [])
      = backfillMissed 7 [⟨1, ⟨2024, 1, 1⟩, none, "A", 1, "mg", "daily", none, none, "i"⟩]
          ⟨2024, 1, 2⟩ [] :=
  ⟨claim_C3.1 7 ⟨1, ⟨2024, 1, 1⟩, none, "A", 1, "mg", "daily", none, none, "i"⟩
      ⟨2024, 1, 2⟩ [] (by decide) (by decide),
   claim_C3.2.1 7 ⟨1, ⟨2024, 1, 1⟩, none, "A", 1, "mg", "daily", none, none, "i"⟩
      ⟨2024, 1, 2⟩ [⟨7, 1, ⟨2024, 1, 2⟩, "A", 0, "mg", 1⟩] (by decide),
   claim_C3.2.2 7 [⟨1, ⟨2024, 1, 1⟩, none, "A", 1, "mg", "daily", none, none, "i"⟩]
      ⟨2024, 1, 2⟩ []⟩

def bucketDoses : Option FutureDose → Int
  | none => 0
  | some b => b.doses

def bucketAmount : Option FutureDose → Int
  | none => 0
  | some b => b.amount

def window_doses (ps : List Prescription) (today : Date) (days : Nat)
    (c : String) : Int :=
  ((List.range days).map (fun delta =>
    (ps.map (fun p => if p.compound_name = c
        then is_dose_due_on_date p (addDays today delta) else 0)).sum)).sum

def window_amount (ps : List Prescription) (today : Date) (days : Nat)
    (c : String) : Int :=
  ((List.range days).map (fun delta =>
    (ps.map (fun p => if p.compound_name = c
        then p.amount * is_dose_due_on_date p (addDays today delta) else 0)).sum)).sum

theorem upcoming_step_value (cd : Date) (m : String → Option FutureDose)
    (q : Prescription) (c : String) :
    bucketDoses (upcoming_step cd m q c)
      = bucketDoses (m c)
        + (if q.compound_name = c then is_dose_due_on_date q cd else 0)
    ∧ bucketAmount (upcoming_step cd m q c)
      = bucketAmount (m c)
        + (if q.compound_name = c then q.amount * is_dose_due_on_date q cd else 0) := by
  unfold upcoming_step
  by_cases hdue : 0 < is_dose_due_on_date q cd
  · rw [if_pos hdue]
    cases hm : m q.compound_name with
    | none =>
      by_cases hc : c = q.compound_name
      · subst hc
        simp [hm, bucketDoses, bucketAmount]
      · have hc' : ¬ (q.compound_name = c) := fun h => hc h.symm
        simp [hm, hc, hc', bucketDoses, bucketAmount]
    | some fd =>
      by_cases hc : c = q.compound_name
      · subst hc
        simp [hm, bucketDoses, bucketAmount]
      · have hc' : ¬ (q.compound_name = c) := fun h => hc h.symm
        simp [hm, hc, hc', bucketDoses, bucketAmount]
  · rw [if_neg hdue]
    have h0 : is_dose_due_on_date q cd = 0 := by
      have := due_nonneg q cd
      omega
    simp [h0]

theorem upcoming_fold_day (cd : Date) (ps : List Prescription)
    (m : String → Option FutureDose) (c : String) :
    bucketDoses ((ps.foldl (fun m p => upcoming_step cd m p) m) c)
      = bucketDoses (m c)
        + (ps.map (fun p => if p.compound_name = c
            then is_dose_due_on_date p cd else 0)).sum
    ∧ bucketAmount ((ps.foldl (fun m p => upcoming_step cd m p) m) c)
      = bucketAmount (m c)
        + (ps.map (fun p => if p.compound_name = c
            then p.amount * is_dose_due_on_date p cd else 0)).sum := by
  induction ps generalizing m with
  | nil => simp
  | cons q t ih =>
    rw [List.foldl_cons, List.map_cons, List.sum_cons, List.map_cons, List.sum_cons]
    obtain ⟨ih1, ih2⟩ := ih (upcoming_step cd m q)
    obtain ⟨hs1, hs2⟩ := upcoming_step_value cd m q c
    rw [ih1, ih2, hs1, hs2]
    constructor <;> ring

theorem upcoming_value (ps : List Prescription) (today : Date) (days : Nat)
    (c : String) :
    bucketDoses (upcoming_doses ps today days c) = window_doses ps today days c
    ∧ bucketAmount (upcoming_doses ps today days c)
        = window_amount ps today days c := by
  induction days with
  | zero =>
    simp [upcoming_doses, window_doses, window_amount, bucketDoses, bucketAmount]
  | succ k ih =>
    obtain ⟨ih1, ih2⟩ := ih
    unfold upcoming_doses at ih1 ih2 ⊢
    unfold window_doses at ih1 ⊢
    unfold window_amount at ih2 ⊢
    rw [List.range_succ, List.foldl_append, List.foldl_cons, List.foldl_nil,
      List.map_append, List.map_append, List.sum_append, List.sum_append,
      List.map_cons, List.map_nil, List.sum_cons, List.sum_nil,
      List.map_cons, List.map_nil, List.sum_cons, List.sum_nil]
    dsimp only
    rw [if_neg (not_dateLt_of_dateLe (dateLe_addDays today k))]
    obtain ⟨hf1, hf2⟩ := upcoming_fold_day (addDays today k) ps
      ((List.range k).foldl
        (fun m day_delta =>
          if dateLt (addDays today day_delta) today then m
          else ps.foldl (fun m p => upcoming_step (addDays today day_delta) m p) m)
        (fun _ => none)) c
    rw [hf1, hf2, ih1, ih2]
    constructor <;> ring

/-- C8: `upcoming_doses` returns a map keyed only on compound name in which
each bucket's `doses` equals the sum of the due counts over every day of
the window and every prescription with that compound name, and `amount`
equals the sum of due count times the prescription amount — distinct
prescriptions sharing a compound name are merged into one bucket. -/
theorem claim_C8 (ps : List Prescription) (today : Date) (days : Nat)
    (c : String) :
    (∀ b : FutureDose, upcoming_doses ps today days c = some b →
        b.doses = window_doses ps today days c
        ∧ b.amount = window_amount ps today days c)
    ∧ (upcoming_doses ps today days c = none →
        window_doses ps today days c = 0
        ∧ window_amount ps today days c = 0) := by
  obtain ⟨h1, h2⟩ := upcoming_value ps today days c
  constructor
  · intro b hb
    rw [hb] at h1 h2
    exact ⟨h1, h2⟩
  · intro hb
    rw [hb] at h1 h2
    exact ⟨h1.symm, h2.symm⟩

/-- Witness for C8 at a concrete input: two prescriptions sharing compound
name "A" (daily of amount 3, twice-daily of amount 5) over a 2-day window
merge into one bucket with 6 doses of total amount 26; an absent compound
has zero window sums. -/
theorem claim_C8_witness :
    ((⟨"A", 26, 6, "mg", "i"⟩ : FutureDose).doses
        = window_doses
            [⟨1, ⟨2024, 1, 1⟩, none, "A", 3, "mg", "daily", none, none, "i"⟩,
             ⟨2, ⟨2024, 1, 1⟩, none, "A", 5, "mg", "twice-daily", none, none, "j"⟩]
            ⟨2024, 1, 1⟩ 2 "A"
      ∧ (⟨"A", 26, 6, "mg", "i"⟩ : FutureDose).amount
        = window_amount
            [⟨1, ⟨2024, 1, 1⟩, none, "A", 3, "mg", "daily", none, none, "i"⟩,
             ⟨2, ⟨2024, 1, 1⟩, none, "A", 5, "mg", "twice-daily", none, none, "j"⟩]
            ⟨2024, 1, 1⟩ 2 "A")
    ∧ (window_doses
          [⟨1, ⟨2024, 1, 1⟩, none, "A", 3, "mg", "daily", none, none, "i"⟩]
          ⟨2024, 1, 1⟩ 2 "B" = 0
      ∧ window_amount
          [⟨1, ⟨2024, 1, 1⟩, none, "A", 3, "mg", "daily", none, none, "i"⟩]
          ⟨2024, 1, 1⟩ 2 "B" = 0) :=
  ⟨(claim_C8
      [⟨1, ⟨2024, 1, 1⟩, none, "A", 3, "mg", "daily", none, none, "i"⟩,
       ⟨2, ⟨2024, 1, 1⟩, none, "A", 5, "mg", "twice-daily", none, none, "j"⟩]
      ⟨2024, 1, 1⟩ 2 "A").1 ⟨"A", 26, 6, "mg", "i"⟩ (by decide),
   (claim_C8
      [⟨1, ⟨2024, 1, 1⟩, none, "A", 3, "mg", "daily", none, none, "i"⟩]
      ⟨2024, 1, 1⟩ 2 "B").2 (by decide)⟩

end KYD
